import Mathlib

/-
Verification of the core logic of OpenSource-Compass-2.O:
the GitHub URL parser and evidence aggregation of
src/backend/controllers/issueController.js, the section planner
buildSectionsList of the same file, and the Markdown formatting
transformer applyFormat of src/frontend/js/pr-generator.js.

JavaScript strings are modelled as Lean String for values that are only
built, compared and joined, with split/endsWith defined on the underlying
character lists (one JS code unit per element), and as List Char where
index arithmetic matters (the applyFormat editor).  Selection indices
returned by applyFormat are modelled as Int, since the source computes
them with plain JS number arithmetic (`start - 4` can go negative).
-/

/-! ## RepoRefParser: parseGitHubUrl (issueController.js lines 4-17) -/

/-- The result shape `{ owner, repo }` returned by parseGitHubUrl. -/
structure RepoRef where
  owner : String
  repo : String
deriving DecidableEq, Repr

/-- The fields of a parsed JS `URL` object that exist on every parse
success; the source reads only `pathname`, but `protocol` and `host`
are carried to state host-independence. -/
structure URLObj where
  protocol : String
  host : String
  pathname : String
deriving DecidableEq, Repr

/-- JS `s.split(sep)` for a one-character separator, on the character
list (splitting the empty string yields one empty piece; no separator
collapse). -/
def splitOnChar (sep : Char) : List Char → List (List Char)
  | [] => [[]]
  | c :: rest =>
    let r := splitOnChar sep rest
    if c = sep then [] :: r
    else
      match r with
      | [] => [[c]]
      | h :: t => (c :: h) :: t

/-- JS `s.endsWith(suffix)` on character lists. -/
def listEndsWith (suffix l : List Char) : Bool :=
  decide (l.drop (l.length - suffix.length) = suffix)

/-- JS `pathname.replace(/\.git$/, '')`: strip one trailing ".git". -/
def stripGitSuffix (pathname : String) : String :=
  if listEndsWith ".git".data pathname.data then
    String.mk (pathname.data.take (pathname.data.length - 4))
  else pathname

/-- The body of parseGitHubUrl after `new URL(url)` succeeded:
`pathname.split('/').filter(Boolean)`, then the first two parts when at
least two remain, else `null`. -/
def githubRefOfURL (urlObj : URLObj) : Option RepoRef :=
  let pathname := stripGitSuffix urlObj.pathname
  let parts := ((splitOnChar '/' pathname.data).map String.mk).filter
    (fun p => p ≠ "")
  if 2 ≤ parts.length then some ⟨parts[0]!, parts[1]!⟩ else none

/-- parseGitHubUrl, parameterised by the platform URL parser: `new URL`
throwing is modelled as the parser returning `none`, which the
`catch (e) { return null }` turns into `none`. -/
def parseGitHubUrl (parseURL : String → Option URLObj) (url : String) :
    Option RepoRef :=
  match parseURL url with
  | none => none
  | some urlObj => githubRefOfURL urlObj

/-- Written from the spec's words (section 4.1), for comparison with the
source-derived `parseGitHubUrl`: on parse failure, or when after
stripping a trailing `.git` and splitting on `/` discarding empty
segments fewer than two segments remain, return the absence value;
otherwise build the RepoRef from exactly the first two segments,
ignoring any further ones. -/
def parseGitHubUrlSpec (parseURL : String → Option URLObj) (url : String) :
    Option RepoRef :=
  match parseURL url with
  | none => none
  | some urlObj =>
    match ((splitOnChar '/' (stripGitSuffix urlObj.pathname).data).map
        String.mk).filter (fun p => p ≠ "") with
    | a :: b :: _ => some ⟨a, b⟩
    | _ => none

/-! ## SectionPlanner: buildSectionsList (issueController.js lines 197-244)

A JS settings object field is `Option (Option Bool)`: `none` means the
key is absent, `some none` means the key is present holding `undefined`,
`some (some b)` a boolean.  The settings object itself may be absent. -/

/-- The `structureSettings` object of generatePRDescription. -/
structure StructureSettings where
  includeSummary : Option (Option Bool)
  includeChecklist : Option (Option Bool)
  includeBreakingChanges : Option (Option Bool)
  includeScreenshots : Option (Option Bool)
  includeLinkedIssues : Option (Option Bool)
deriving DecidableEq, Repr

/-- Object-spread semantics for one key of `{ ...defaults, ...settings }`:
a key present in `settings` (even holding `undefined`) overrides the
default `true`; an absent key keeps the default. -/
def mergeField (v : Option (Option Bool)) : Option Bool :=
  match v with
  | none => some true
  | some v => v

/-- Merged toggle values after the spread, one JS value per key. -/
structure MergedToggles where
  includeSummary : Option Bool
  includeChecklist : Option Bool
  includeBreakingChanges : Option Bool
  includeScreenshots : Option Bool
  includeLinkedIssues : Option Bool
deriving DecidableEq, Repr

/-- `const s = { ...defaults, ...settings }` where `settings` may be
`undefined` (spreading `undefined` adds nothing). -/
def mergeToggles (settings : Option StructureSettings) : MergedToggles :=
  match settings with
  | none => ⟨some true, some true, some true, some true, some true⟩
  | some st =>
    ⟨mergeField st.includeSummary, mergeField st.includeChecklist,
     mergeField st.includeBreakingChanges, mergeField st.includeScreenshots,
     mergeField st.includeLinkedIssues⟩

/-- JS truthiness of a boolean-or-undefined value. -/
def jsTruthy (v : Option Bool) : Bool :=
  match v with
  | some b => b
  | none => false

/-- JS truthiness of a string-or-undefined value (empty string is falsy). -/
def jsTruthyStr (v : Option String) : Bool :=
  match v with
  | some s => !s.isEmpty
  | none => false

def descriptionEntry : String := "- ## 📌 Description"

def summaryEntry : String :=
  "- ## 📝 Summary (a concise overview of what this PR achieves)"

/-- The Related Issue entry embeds the literal prLink when truthy. -/
def relatedEntry (prLink : Option String) : String :=
  "- ## 🔗 Related Issue (" ++
    (if jsTruthyStr prLink then "Relates to " ++ prLink.getD ""
     else "placeholder like #issue-number") ++ ")"

def typeOfChangeEntry : String :=
  "- ## 🛠️ Type of Change (include options like Bug fix, New feature, etc. with [x] for the relevant one)"

def checklistEntry : String := "- ## ✅ Checklist"

def breakingChangesEntry : String :=
  "- ## ⚠️ Breaking Changes (list any breaking changes; if none, state \"No breaking changes\")"

def testingDetailsEntry : String := "- ## 🧪 Testing Details"

def screenshotsEntry : String := "- ## 📸 Screenshots (if applicable)"

def additionalNotesEntry : String := "- ## 💬 Additional Notes"

/-- The `sectionEntries` array pushed by buildSectionsList, in push
order: Description always, Summary / Related Issue / Checklist /
Breaking Changes / Screenshots guarded by their merged toggles, Type of
Change, Testing Details and Additional Notes always. -/
def buildSectionEntries (prLink : Option String)
    (settings : Option StructureSettings) : List String :=
  let s := mergeToggles settings
  [descriptionEntry]
    ++ (if jsTruthy s.includeSummary then [summaryEntry] else [])
    ++ (if jsTruthy s.includeLinkedIssues then [relatedEntry prLink] else [])
    ++ [typeOfChangeEntry]
    ++ (if jsTruthy s.includeChecklist then [checklistEntry] else [])
    ++ (if jsTruthy s.includeBreakingChanges then [breakingChangesEntry] else [])
    ++ [testingDetailsEntry]
    ++ (if jsTruthy s.includeScreenshots then [screenshotsEntry] else [])
    ++ [additionalNotesEntry]

/-- buildSectionsList returns the entries joined by `'\n    '`. -/
def buildSectionsList (prLink : Option String)
    (settings : Option StructureSettings) : String :=
  String.intercalate "\n    " (buildSectionEntries prLink settings)

/-- An all-true SectionToggleSet. -/
def allTrueSettings : StructureSettings :=
  ⟨some (some true), some (some true), some (some true), some (some true),
   some (some true)⟩

/-- An all-false SectionToggleSet. -/
def allFalseSettings : StructureSettings :=
  ⟨some (some false), some (some false), some (some false),
   some (some false), some (some false)⟩

/-! ## ContextAggregator: the aggregation step of validateIssue
(issueController.js lines 31-76)

`Promise.allSettled` outcomes are modelled by `Outcome`; raw upstream
payload fields that JS may leave `undefined` are `Option`s.  A thrown
TypeError inside the `try` block is modelled by `Except.error`. -/

/-- One settled promise: `{status:'fulfilled', value}` or
`{status:'rejected', reason}` (only `reason.message` is read). -/
inductive Outcome (α : Type) where
  | fulfilled (value : α)
  | rejected (message : String)
deriving DecidableEq, Repr

/-- A raw issue object from the issues endpoint; every field may be
absent (`undefined`). -/
structure RawIssue where
  number : Option Int
  state : Option String
  created_at : Option String
  title : Option String
  body : Option String
deriving DecidableEq, Repr

/-- A raw tree entry `{path, type}`, fields possibly absent. -/
structure RawTreeEntry where
  path : Option String
  type : Option String
deriving DecidableEq, Repr

/-- A tree response body; the `tree` field may be absent. -/
structure TreeData where
  tree : Option (List RawTreeEntry)
deriving DecidableEq, Repr

/-- JS template interpolation of a possibly-undefined string. -/
def jsShow (v : Option String) : String :=
  match v with
  | some s => s
  | none => "undefined"

/-- JS template interpolation of a possibly-undefined number. -/
def jsShowInt (v : Option Int) : String :=
  match v with
  | some n => toString n
  | none => "undefined"

/-- `body.substring(0, 200).replace(/\n/g, ' ')`. -/
def snippetOf (body : String) : String :=
  String.mk ((body.data.take 200).map (fun c => if c = '\n' then ' ' else c))

/-- One line of the issues summary.  Reading `created_at.split('T')`
throws a TypeError when `created_at` is absent; `issue.body ? ... :
'No description'` treats an absent or empty body as falsy. -/
def summarizeIssue (issue : RawIssue) : Except String String :=
  match issue.created_at with
  | none => Except.error "TypeError: issue.created_at is undefined"
  | some ca =>
    Except.ok ("- #" ++ jsShowInt issue.number ++ " [" ++ jsShow issue.state
      ++ "] (Created: " ++ String.mk ((splitOnChar 'T' ca.data).headD []) ++ ") "
      ++ jsShow issue.title ++ "\n  Snippet: "
      ++ (match issue.body with
          | some b => if b.isEmpty then "No description" else snippetOf b
          | none => "No description")
      ++ "...")

/-- `data.map(issue => ...).join("\n")`: the map evaluates left to
right and aborts at the first thrown TypeError. -/
def summarizeIssues (data : List RawIssue) : Except String String :=
  (data.mapM summarizeIssue).map (String.intercalate "\n")

/-- `data.tree.filter(item => item.type === 'blob').slice(0, 100)
.map(item => item.path).join("\n")`; accessing `.filter` on an absent
`tree` field throws, and `join` renders an undefined path as "". -/
def summarizeTree (d : TreeData) : Except String String :=
  match d.tree with
  | none => Except.error "TypeError: data.tree is undefined"
  | some entries =>
    Except.ok (String.intercalate "\n"
      (((entries.filter (fun item => item.type = some "blob")).take 100).map
        (fun item => match item.path with
                     | some p => p
                     | none => "")))

def initialIssuesText : String := "Could not fetch existing issues."

def initialTreeText : String := "Could not fetch project files."

def fallbackCatchText : String :=
  "Could not fetch file tree (repo might be empty or too large/private)."

/-- The aggregation step of validateIssue: both summary variables start
as placeholders; the issues branch runs first and, when fulfilled,
reassigns the issues summary (or throws on a malformed entry); the tree
branch runs second.  Any exception escaping a branch hits
the enclosing catch, which only logs, so later assignments are skipped
and the variables keep their values at the time of the throw. -/
def issuesStepOf (issuesRes : Outcome (List RawIssue)) :
    Except String String :=
  match issuesRes with
  | Outcome.fulfilled data => summarizeIssues data
  | Outcome.rejected msg => Except.ok ("Error fetching issues: " ++ msg)

/-- The tree branch: a fulfilled primary response is summarized (and
may throw on an absent `tree` field, escaping to the enclosing catch);
a rejected one is retried against the fallback inside its own
try/catch, whose catch produces the fixed placeholder. -/
def treeStepOf (treeRes fallbackRes : Outcome TreeData) :
    Except String String :=
  match treeRes with
  | Outcome.fulfilled d => summarizeTree d
  | Outcome.rejected _ =>
    match fallbackRes with
    | Outcome.fulfilled d2 =>
      match summarizeTree d2 with
      | Except.ok s => Except.ok s
      | Except.error _ => Except.ok fallbackCatchText
    | Outcome.rejected _ => Except.ok fallbackCatchText

def aggregateContext (issuesRes : Outcome (List RawIssue))
    (treeRes fallbackRes : Outcome TreeData) : String × String :=
  match issuesStepOf issuesRes with
  | Except.error _ => (initialIssuesText, initialTreeText)
  | Except.ok issuesText =>
    match treeStepOf treeRes fallbackRes with
    | Except.error _ => (issuesText, initialTreeText)
    | Except.ok treeText => (issuesText, treeText)

/-! ## TextRangeEditor: applyFormat (pr-generator.js lines 285-391)

Text is a `List Char` (one JS code unit per element); `selectionStart`
and `selectionEnd` read from the textarea are in-bounds naturals; the
selection values the function computes are JS numbers, modelled as
`Int` (the heading branch computes `start - 4`). -/

/-- The closed set of `data-action` values handled by the switch. -/
inductive FormatAction where
  | bold
  | italic
  | strikethrough
  | heading
  | code
  | link
  | ul
  | checklist
  | quote
deriving DecidableEq, Repr

/-- The new buffer contents and selection computed by applyFormat. -/
structure FmtResult where
  text : List Char
  selStart : Int
  selEnd : Int
deriving DecidableEq, Repr

/-- JS `text.substring(a, b)`: clamp both arguments to `[0, length]`
and swap when the first exceeds the second. -/
def jsSubstring (s : List Char) (a b : Nat) : List Char :=
  let a' := min a s.length
  let b' := min b s.length
  (s.take (max a' b')).drop (min a' b')

/-- JS `s.startsWith(pat)` restricted to the patterns used here. -/
def jsStartsWith (pat s : List Char) : Bool :=
  decide (s.take pat.length = pat)

/-- The greatest index `≤ i` holding a newline, if any: JS
`text.lastIndexOf('\n', i)` with its fromIndex already clamped to 0. -/
def jsLastNLIdx (s : List Char) : Nat → Option Nat
  | 0 => if s.get? 0 = some '\n' then some 0 else none
  | n + 1 => if s.get? (n + 1) = some '\n' then some (n + 1)
             else jsLastNLIdx s n

/-- `text.lastIndexOf('\n', start - 1) + 1`; the truncated `start - 1`
reproduces JS clamping a fromIndex of `-1` to 0. -/
def lineStartOf (text : List Char) (start : Nat) : Nat :=
  match jsLastNLIdx text (start - 1) with
  | some i => i + 1
  | none => 0

def h1Pat : List Char := ('#' :: ' ' :: [])

def h2Pat : List Char := ('#' :: '#' :: ' ' :: [])

def h3Pat : List Char := ('#' :: '#' :: '#' :: ' ' :: [])

/-- The heading case of applyFormat: find the current line start, test
the line text (up to the selection end) against `'### '`, `'## '`,
`'# '` in that order, rewrite the line's leading marker one step along
the cycle, and collapse the selection to a single cursor moved by the
net character difference. -/
def headingStep (text : List Char) (s e : Nat) : FmtResult :=
  let lineStart := lineStartOf text s
  let lineText := jsSubstring text lineStart e
  if jsStartsWith h3Pat lineText then
    ⟨text.take lineStart ++ lineText.drop 4 ++ text.drop e,
      (s : Int) - 4, (s : Int) - 4⟩
  else if jsStartsWith h2Pat lineText then
    ⟨text.take lineStart ++ (h3Pat ++ lineText.drop 3) ++ text.drop e,
      (s : Int) + 1, (s : Int) + 1⟩
  else if jsStartsWith h1Pat lineText then
    ⟨text.take lineStart ++ (h2Pat ++ lineText.drop 2) ++ text.drop e,
      (s : Int) + 1, (s : Int) + 1⟩
  else
    ⟨text.take lineStart ++ h2Pat ++ lineText ++ text.drop e,
      (s : Int) + 3, (s : Int) + 3⟩

/-- JS `selected || placeholder`: an empty selection string is falsy. -/
def jsOrElse (selected placeholder : List Char) : List Char :=
  if selected.isEmpty then placeholder else selected

/-- `src.split('\n').map(line => mark + line).join('\n')` for the
line-marker operations. -/
def markLines (mark src : List Char) : List Char :=
  List.intercalate ('\n' :: [])
    ((splitOnChar '\n' src).map (fun line => mark ++ line))

/-- `start > 0 && text[start - 1] !== '\n' ? '\n' : ''`: the newline
prepended before a list block when the preceding character exists and
is not already a line break (an out-of-range access yields `undefined`,
which differs from `'\n'`). -/
def nlGuard (text : List Char) (s : Nat) : List Char :=
  if s = 0 then []
  else if text.get? (s - 1) = some '\n' then []
  else ('\n' :: [])

/-- The common tail of the non-heading cases: splice
`before + insert + after` over the selection, then position the
selection: with a prior selection, from `start + before.length`
spanning `insert`; with an empty selection, from
`start + before.length + cursorOffset` to that plus
`insert.length - cursorOffset`. -/
def finishFmt (text : List Char) (s e : Nat)
    (selected before after insert : List Char) (cursorOffset : Nat) :
    FmtResult :=
  let replacement := before ++ insert ++ after
  let newText := text.take s ++ replacement ++ text.drop e
  if selected.isEmpty then
    let pos := s + before.length + cursorOffset
    ⟨newText, (pos : Int), ((pos + insert.length - cursorOffset : Nat) : Int)⟩
  else
    ⟨newText, ((s + before.length : Nat) : Int),
      ((s + before.length + insert.length : Nat) : Int)⟩

def boldPH : List Char := "bold text".data

def italicPH : List Char := "italic text".data

def strikethroughPH : List Char := "strikethrough".data

def codePH : List Char := "code".data

def linkPH : List Char := "[link text](url)".data

def ulPH : List Char := "list item".data

def checklistPH : List Char := "task item".data

def quotePH : List Char := "quote".data

/-- applyFormat: the switch over the action, producing the new buffer
text and selection. -/
def applyFormat (action : FormatAction) (text : List Char) (s e : Nat) :
    FmtResult :=
  let selected := jsSubstring text s e
  match action with
  | FormatAction.bold =>
    finishFmt text s e selected "**".data "**".data
      (jsOrElse selected boldPH) (if selected.isEmpty then 2 else 0)
  | FormatAction.italic =>
    finishFmt text s e selected "*".data "*".data
      (jsOrElse selected italicPH) (if selected.isEmpty then 1 else 0)
  | FormatAction.strikethrough =>
    finishFmt text s e selected "~~".data "~~".data
      (jsOrElse selected strikethroughPH) (if selected.isEmpty then 2 else 0)
  | FormatAction.heading => headingStep text s e
  | FormatAction.code =>
    finishFmt text s e selected ("`".data) ("`".data)
      (jsOrElse selected codePH) (if selected.isEmpty then 1 else 0)
  | FormatAction.link =>
    if selected.isEmpty then
      finishFmt text s e selected [] [] linkPH 1
    else
      finishFmt text s e selected "[".data "](url)".data selected 0
  | FormatAction.ul =>
    finishFmt text s e selected (nlGuard text s) []
      (markLines "- ".data (jsOrElse selected ulPH)) 0
  | FormatAction.checklist =>
    finishFmt text s e selected (nlGuard text s) []
      (markLines "- [ ] ".data (jsOrElse selected checklistPH)) 0
  | FormatAction.quote =>
    finishFmt text s e selected (nlGuard text s) []
      (markLines "> ".data (jsOrElse selected quotePH)) 0

/-- A well-formed textarea state: the selection is within the text. -/
def WFInput (text : List Char) (s e : Nat) : Prop :=
  s ≤ e ∧ e ≤ text.length

instance (text : List Char) (s e : Nat) : Decidable (WFInput text s e) :=
  inferInstanceAs (Decidable (_ ∧ _))

/-- The EditBuffer invariant on a result:
`0 ≤ selectionStart ≤ selectionEnd ≤ length(text)`. -/
def WFResult (r : FmtResult) : Prop :=
  0 ≤ r.selStart ∧ r.selStart ≤ r.selEnd ∧ r.selEnd ≤ (r.text.length : Int)

instance (r : FmtResult) : Decidable (WFResult r) :=
  inferInstanceAs (Decidable (_ ∧ _ ∧ _))

/-- The text produced by one heading operation applied to a buffer
with the cursor collapsed at the end, the regime in which repeated
heading applications on a single line stay (each heading rewrite of a
whole line puts the cursor back at the end of the buffer). -/
def applyHeadingAtEnd (t : List Char) : List Char :=
  (applyFormat FormatAction.heading t t.length t.length).text

/-- Whether a line carries none of the three heading markers. -/
def headFree (t : List Char) : Bool :=
  !jsStartsWith h3Pat t && !jsStartsWith h2Pat t && !jsStartsWith h1Pat t

/-- The line's content below its heading marker, if any. -/
def lineCore (t : List Char) : List Char :=
  if jsStartsWith h3Pat t then t.drop 4
  else if jsStartsWith h2Pat t then t.drop 3
  else if jsStartsWith h1Pat t then t.drop 2
  else t

/-- The heading case only keeps the selection in bounds when stripping
a `'### '` marker happens at least 4 characters before the selection
start; this is the side condition under which the invariant claim is
provable. -/
def headingSafe (text : List Char) (s e : Nat) : Prop :=
  jsStartsWith h3Pat (jsSubstring text (lineStartOf text s) e) = true →
    lineStartOf text s + 4 ≤ s

instance (text : List Char) (s e : Nat) : Decidable (headingSafe text s e) :=
  inferInstanceAs (Decidable (_ → _))

/-! ## Support lemmas -/

theorem jsStartsWith_iff (pat s : List Char) :
    jsStartsWith pat s = true ↔ s.take pat.length = pat := by
  simp [jsStartsWith]

theorem jsStartsWith_length {pat s : List Char}
    (h : jsStartsWith pat s = true) : pat.length ≤ s.length := by
  have h' := (jsStartsWith_iff pat s).mp h
  have : (s.take pat.length).length = pat.length := by rw [h']
  simpa using this

theorem jsSubstring_self (t : List Char) (p : Nat) : jsSubstring t p p = [] := by
  simp [jsSubstring, List.drop_take]

theorem jsSubstring_full (t : List Char) : jsSubstring t 0 t.length = t := by
  simp [jsSubstring]

theorem jsLastNLIdx_none (t : List Char) (h : '\n' ∉ t) :
    ∀ n, jsLastNLIdx t n = none := by
  intro n
  induction n with
  | zero =>
    unfold jsLastNLIdx
    rw [if_neg]
    intro hc
    exact h (List.get?_mem hc)
  | succ n ih =>
    unfold jsLastNLIdx
    rw [if_neg, ih]
    intro hc
    exact h (List.get?_mem hc)

theorem lineStartOf_noNL (t : List Char) (h : '\n' ∉ t) (s : Nat) :
    lineStartOf t s = 0 := by
  unfold lineStartOf
  rw [jsLastNLIdx_none t h]

theorem jsLastNLIdx_isSome (t : List Char) :
    ∀ n i, jsLastNLIdx t n = some i → t.get? i = some '\n' := by
  intro n
  induction n with
  | zero =>
    intro i h
    unfold jsLastNLIdx at h
    split at h
    · cases h; assumption
    · cases h
  | succ n ih =>
    intro i h
    unfold jsLastNLIdx at h
    split at h
    · cases h; assumption
    · exact ih i h

theorem lineStartOf_le (text : List Char) (s : Nat) :
    lineStartOf text s ≤ text.length := by
  unfold lineStartOf
  cases h : jsLastNLIdx text (s - 1) with
  | none => exact Nat.zero_le _
  | some i =>
    have hi := jsLastNLIdx_isSome text (s - 1) i h
    have : i < text.length := by
      rcases List.get?_eq_some.mp hi with ⟨hlt, _⟩
      exact hlt
    show i + 1 ≤ text.length
    omega

theorem jsSubstring_length (t : List Char) (a b : Nat) :
    (jsSubstring t a b).length =
      max (min a t.length) (min b t.length) -
        min (min a t.length) (min b t.length) := by
  unfold jsSubstring
  simp only [List.length_drop, List.length_take]
  omega

theorem finishFmt_wf (text selected before after insert : List Char)
    (c s e : Nat) (hse : s ≤ e) (hel : e ≤ text.length)
    (hc : c ≤ insert.length) :
    WFResult (finishFmt text s e selected before after insert c) := by
  unfold finishFmt WFResult
  split
  · refine ⟨?_, ?_, ?_⟩ <;>
      simp only [List.length_append, List.length_take, List.length_drop,
        List.length_cons, List.length_nil] <;>
      omega
  · refine ⟨?_, ?_, ?_⟩ <;>
      simp only [List.length_append, List.length_take, List.length_drop,
        List.length_cons, List.length_nil] <;>
      omega

theorem heading_wf (text : List Char) (s e : Nat) (hse : s ≤ e)
    (hel : e ≤ text.length) (hsafe : headingSafe text s e) :
    WFResult (headingStep text s e) := by
  have hL : lineStartOf text s ≤ text.length := lineStartOf_le text s
  have hlt : (jsSubstring text (lineStartOf text s) e).length =
      max (min (lineStartOf text s) text.length) (min e text.length) -
        min (min (lineStartOf text s) text.length) (min e text.length) :=
    jsSubstring_length text (lineStartOf text s) e
  unfold headingStep WFResult
  simp only []
  split
  case isTrue h3 =>
    have h4 : 4 ≤ (jsSubstring text (lineStartOf text s) e).length :=
      jsStartsWith_length h3
    have hs4 : lineStartOf text s + 4 ≤ s := hsafe h3
    refine ⟨?_, le_refl _, ?_⟩ <;>
      simp only [List.length_append, List.length_take, List.length_drop,
        List.length_cons, List.length_nil] <;>
      omega
  case isFalse h3 =>
    split
    case isTrue h2 =>
      have h4 : 3 ≤ (jsSubstring text (lineStartOf text s) e).length :=
        jsStartsWith_length h2
      refine ⟨?_, le_refl _, ?_⟩ <;>
        simp only [List.length_append, List.length_take, List.length_drop,
          h3Pat, List.length_cons, List.length_nil] <;>
        omega
    case isFalse h2 =>
      split
      case isTrue h1 =>
        have h4 : 2 ≤ (jsSubstring text (lineStartOf text s) e).length :=
          jsStartsWith_length h1
        refine ⟨?_, le_refl _, ?_⟩ <;>
          simp only [List.length_append, List.length_take, List.length_drop,
            h2Pat, List.length_cons, List.length_nil] <;>
          omega
      case isFalse h1 =>
        refine ⟨?_, le_refl _, ?_⟩ <;>
          simp only [List.length_append, List.length_take, List.length_drop,
            h2Pat, List.length_cons, List.length_nil] <;>
          omega

/-! ## Claim theorems -/

theorem firstTwoOfList (l : List String) :
    (if 2 ≤ l.length then some (⟨l[0]!, l[1]!⟩ : RepoRef) else none) =
      (match l with
       | a :: b :: _ => some ⟨a, b⟩
       | _ => none) := by
  rcases l with _ | ⟨a, _ | ⟨b, t⟩⟩ <;> simp

/-- Claim C8: for every input string, parseGitHubUrl behaves exactly as
the spec's contract describes: on URL-parse failure, or when after
stripping a trailing `.git` and splitting the pathname on `/`
(discarding empty segments) fewer than two segments remain, it returns
the absence value; otherwise it returns the RepoRef built from exactly
the first two segments, extra segments ignored.  Totality of the Lean
function models "never raises". -/
theorem c8_parseGitHubUrl_matches_contract :
    ∀ (parseURL : String → Option URLObj) (url : String),
      parseGitHubUrl parseURL url = parseGitHubUrlSpec parseURL url := by
  intro p url
  unfold parseGitHubUrl parseGitHubUrlSpec githubRefOfURL
  cases p url with
  | none => rfl
  | some u => exact firstTwoOfList _

/-- Claim C9: parseGitHubUrl performs no host or scheme validation: the
RepoRef extraction depends only on the URL's pathname, so a
gitlab.com (or arbitrary-host) URL object is accepted exactly like a
github.com one; concretely, a parsed `http://gitlab.com/foo/bar/baz`
yields `{owner := "foo", repo := "bar"}`. -/
theorem c9_no_host_validation :
    (∀ u1 u2 : URLObj, u1.pathname = u2.pathname →
      githubRefOfURL u1 = githubRefOfURL u2)
    ∧ githubRefOfURL ⟨"http:", "gitlab.com", "/foo/bar/baz"⟩ =
        some ⟨"foo", "bar"⟩ := by
  constructor
  · intro u1 u2 h
    unfold githubRefOfURL
    rw [h]
  · decide

/-- Witness for C9: the host-independence part applied at concrete URL
objects differing only in scheme and host. -/
theorem c9_no_host_validation_witness :
    githubRefOfURL ⟨"http:", "gitlab.com", "/foo/bar"⟩ =
      githubRefOfURL ⟨"https:", "github.com", "/foo/bar"⟩ :=
  c9_no_host_validation.1 ⟨"http:", "gitlab.com", "/foo/bar"⟩
    ⟨"https:", "github.com", "/foo/bar"⟩ rfl

/-- Counterexample to claim C2 as stated: for an all-false toggle set,
buildSectionsList outputs 4 sections, not 5. -/
theorem c2_counterexample :
    (buildSectionEntries none (some allFalseSettings)).length = 4 ∧
    ¬ (buildSectionEntries none (some allFalseSettings)).length = 5 := by
  constructor
  · rfl
  · intro h
    rw [show (buildSectionEntries none (some allFalseSettings)).length = 4
          from rfl] at h
    cases h

/-- Claim C2 (amended): for an all-true SectionToggleSet,
buildSectionsList outputs exactly 9 sections in the fixed order
Description, Summary, Related/Linked reference, Type of Change,
Checklist, Breaking Changes, Testing Details, Screenshots, Additional
Notes; for an all-false SectionToggleSet it outputs exactly the FOUR
unconditional sections Description, Type of Change, Testing Details,
Additional Notes in the same relative order (the code has four
always-included sections, not five). -/
theorem c2_section_planner_amended :
    ∀ prLink : Option String,
      buildSectionEntries prLink (some allTrueSettings) =
        [descriptionEntry, summaryEntry, relatedEntry prLink,
         typeOfChangeEntry, checklistEntry, breakingChangesEntry,
         testingDetailsEntry, screenshotsEntry, additionalNotesEntry]
      ∧ buildSectionEntries prLink (some allFalseSettings) =
        [descriptionEntry, typeOfChangeEntry, testingDetailsEntry,
         additionalNotesEntry] := by
  intro p
  exact ⟨rfl, rfl⟩

/-- Claim C10: in buildSectionsList, a toggle key present in the
settings object but bound to undefined overrides the default via the
object spread and behaves exactly as if it were false (its section is
omitted), while a key truly absent behaves exactly as the default true;
stated for each of the five keys, plus a concrete omission: binding
includeSummary to undefined removes the Summary entry that an absent
key would keep. -/
theorem c10_undefined_key_is_false :
    ∀ (prLink : Option String) (st : StructureSettings),
      (buildSectionEntries prLink
          (some { st with includeSummary := some none }) =
        buildSectionEntries prLink
          (some { st with includeSummary := some (some false) })
      ∧ buildSectionEntries prLink (some { st with includeSummary := none }) =
        buildSectionEntries prLink
          (some { st with includeSummary := some (some true) }))
      ∧ (buildSectionEntries prLink
          (some { st with includeChecklist := some none }) =
        buildSectionEntries prLink
          (some { st with includeChecklist := some (some false) })
      ∧ buildSectionEntries prLink
          (some { st with includeChecklist := none }) =
        buildSectionEntries prLink
          (some { st with includeChecklist := some (some true) }))
      ∧ (buildSectionEntries prLink
          (some { st with includeBreakingChanges := some none }) =
        buildSectionEntries prLink
          (some { st with includeBreakingChanges := some (some false) })
      ∧ buildSectionEntries prLink
          (some { st with includeBreakingChanges := none }) =
        buildSectionEntries prLink
          (some { st with includeBreakingChanges := some (some true) }))
      ∧ (buildSectionEntries prLink
          (some { st with includeScreenshots := some none }) =
        buildSectionEntries prLink
          (some { st with includeScreenshots := some (some false) })
      ∧ buildSectionEntries prLink
          (some { st with includeScreenshots := none }) =
        buildSectionEntries prLink
          (some { st with includeScreenshots := some (some true) }))
      ∧ (buildSectionEntries prLink
          (some { st with includeLinkedIssues := some none }) =
        buildSectionEntries prLink
          (some { st with includeLinkedIssues := some (some false) })
      ∧ buildSectionEntries prLink
          (some { st with includeLinkedIssues := none }) =
        buildSectionEntries prLink
          (some { st with includeLinkedIssues := some (some true) }))
      ∧ summaryEntry ∉ buildSectionEntries none
          (some { allTrueSettings with includeSummary := some none })
      ∧ summaryEntry ∈ buildSectionEntries none
          (some { allTrueSettings with includeSummary := none }) := by
  intro p st
  refine ⟨⟨rfl, rfl⟩, ⟨rfl, rfl⟩, ⟨rfl, rfl⟩, ⟨rfl, rfl⟩, ⟨rfl, rfl⟩,
    by decide, by decide⟩


/-- A raw issue whose `created_at` field is absent: summarizing it
throws a TypeError in the source. -/
def badIssue : RawIssue :=
  ⟨some 1, some "open", none, some "crash on save", none⟩

/-- A well-formed tree payload with one blob entry. -/
def goodTree : TreeData := ⟨some [⟨some "src/a.js", some "blob"⟩]⟩

theorem issuesStepOf_ok {i : Outcome (List RawIssue)} {s : String}
    (h : issuesStepOf i = Except.ok s) :
    (∃ m, i = Outcome.rejected m ∧ s = "Error fetching issues: " ++ m)
    ∨ (∃ d, i = Outcome.fulfilled d ∧ summarizeIssues d = Except.ok s) := by
  cases i with
  | fulfilled d => exact Or.inr ⟨d, rfl, h⟩
  | rejected m =>
    left
    refine ⟨m, rfl, ?_⟩
    cases h
    rfl

theorem treeStepOf_ok {t fb : Outcome TreeData} {s : String}
    (h : treeStepOf t fb = Except.ok s) :
    s = fallbackCatchText
    ∨ (∃ d, t = Outcome.fulfilled d ∧ summarizeTree d = Except.ok s)
    ∨ (∃ d, fb = Outcome.fulfilled d ∧ summarizeTree d = Except.ok s) := by
  cases t with
  | fulfilled d => exact Or.inr (Or.inl ⟨d, rfl, h⟩)
  | rejected mt =>
    cases fb with
    | fulfilled d2 =>
      simp only [treeStepOf] at h
      cases hs : summarizeTree d2 with
      | ok s2 =>
        rw [hs] at h
        cases h
        exact Or.inr (Or.inr ⟨d2, rfl, hs⟩)
      | error e =>
        rw [hs] at h
        cases h
        exact Or.inl rfl
    | rejected mf =>
      simp only [treeStepOf] at h
      cases h
      exact Or.inl rfl

/-- Claim C6: for every combination of upstream outcomes, the
aggregation step of validateIssue produces two populated summary
strings — each is either actually summarized content or one of the
fixed placeholders — and, being a total Lean function in which every
internal `Except.error` (thrown TypeError) is caught, it never raises
to its caller. -/
theorem c6_aggregate_always_populated :
    ∀ (i : Outcome (List RawIssue)) (t fb : Outcome TreeData),
      ((aggregateContext i t fb).1 = initialIssuesText
        ∨ (∃ m, i = Outcome.rejected m ∧
            (aggregateContext i t fb).1 = "Error fetching issues: " ++ m)
        ∨ (∃ d, i = Outcome.fulfilled d ∧
            Except.ok (aggregateContext i t fb).1 = summarizeIssues d))
      ∧ ((aggregateContext i t fb).2 = initialTreeText
        ∨ (aggregateContext i t fb).2 = fallbackCatchText
        ∨ (∃ d, t = Outcome.fulfilled d ∧
            Except.ok (aggregateContext i t fb).2 = summarizeTree d)
        ∨ (∃ d, fb = Outcome.fulfilled d ∧
            Except.ok (aggregateContext i t fb).2 = summarizeTree d)) := by
  intro i t fb
  unfold aggregateContext
  cases hi : issuesStepOf i with
  | error e => exact ⟨Or.inl rfl, Or.inl rfl⟩
  | ok si =>
    cases ht : treeStepOf t fb with
    | error e =>
      constructor
      · rcases issuesStepOf_ok hi with ⟨m, him, hs⟩ | ⟨d, hid, hsum⟩
        · exact Or.inr (Or.inl ⟨m, him, hs⟩)
        · exact Or.inr (Or.inr ⟨d, hid, by rw [hsum]⟩)
      · exact Or.inl rfl
    | ok st =>
      constructor
      · rcases issuesStepOf_ok hi with ⟨m, him, hs⟩ | ⟨d, hid, hsum⟩
        · exact Or.inr (Or.inl ⟨m, him, hs⟩)
        · exact Or.inr (Or.inr ⟨d, hid, by rw [hsum]⟩)
      · rcases treeStepOf_ok ht with hst | ⟨d, htd, hsum⟩ | ⟨d, hfd, hsum⟩
        · exact Or.inr (Or.inl hst)
        · exact Or.inr (Or.inr (Or.inl ⟨d, htd, by rw [hsum]⟩))
        · exact Or.inr (Or.inr (Or.inr ⟨d, hfd, by rw [hsum]⟩))

/-- Counterexample to claim C7 as stated: fulfilled issue data holding
one malformed entry (absent `created_at`) makes the whole aggregation
abort — the tree summary stays at its initial placeholder even though
the tree fetch succeeded and would have summarized to "src/a.js", so
the issue side does abort and does degrade the tree side. -/
theorem c7_counterexample :
    summarizeTree goodTree = Except.ok "src/a.js"
    ∧ aggregateContext (Outcome.fulfilled [badIssue])
        (Outcome.fulfilled goodTree) (Outcome.rejected "boom") =
      (initialIssuesText, initialTreeText)
    ∧ initialTreeText ≠ "src/a.js" := by
  refine ⟨rfl, rfl, by decide⟩

/-- Claim C7 (amended): independence holds at the fetch-outcome level —
a rejected issues request leaves the tree summary exactly as a
successfully summarized one would, and the issues summary never depends
on the tree outcomes — but the issue reduction is not total: an issue
entry whose `created_at` is absent throws, the enclosing catch skips
the whole tree branch, and both summaries are left at their initial
placeholders. -/
theorem c7_amended :
    (∀ (d : List RawIssue) (m s : String) (t fb : Outcome TreeData),
      summarizeIssues d = Except.ok s →
      (aggregateContext (Outcome.fulfilled d) t fb).2 =
        (aggregateContext (Outcome.rejected m) t fb).2)
    ∧ (∀ (i : Outcome (List RawIssue)) (t fb t' fb' : Outcome TreeData),
      (aggregateContext i t fb).1 = (aggregateContext i t' fb').1)
    ∧ (∀ (d : List RawIssue) (e : String) (t fb : Outcome TreeData),
      summarizeIssues d = Except.error e →
      aggregateContext (Outcome.fulfilled d) t fb =
        (initialIssuesText, initialTreeText)) := by
  refine ⟨?_, ?_, ?_⟩
  · intro d m s t fb hok
    simp only [aggregateContext, issuesStepOf]
    rw [hok]
    cases treeStepOf t fb <;> rfl
  · intro i t fb t' fb'
    unfold aggregateContext
    cases issuesStepOf i with
    | error e => rfl
    | ok si => cases treeStepOf t fb <;> cases treeStepOf t' fb' <;> rfl
  · intro d e t fb herr
    simp only [aggregateContext, issuesStepOf]
    rw [herr]

/-- Witness for C7 (amended): the fetch-level independence applied at a
well-formed empty issue list against a fulfilled tree. -/
theorem c7_amended_witness :
    (aggregateContext (Outcome.fulfilled []) (Outcome.fulfilled goodTree)
        (Outcome.rejected "y")).2 =
      (aggregateContext (Outcome.rejected "x") (Outcome.fulfilled goodTree)
        (Outcome.rejected "y")).2 :=
  c7_amended.1 [] "x" "" (Outcome.fulfilled goodTree)
    (Outcome.rejected "y") rfl

/-- Counterexample to claim C1 as stated: link on the empty buffer with
the empty selection at 0 produces the claimed text, and selectionStart
is indeed 1, but selectionEnd is 16 (the end of the inserted
placeholder) — not 1, so the resulting selection is not a collapsed
cursor. -/
theorem c1_counterexample :
    (applyFormat FormatAction.link [] 0 0).text = "[link text](url)".data
    ∧ (applyFormat FormatAction.link [] 0 0).selStart = 1
    ∧ (applyFormat FormatAction.link [] 0 0).selEnd = 16
    ∧ (applyFormat FormatAction.link [] 0 0).selEnd ≠ 1 := by
  refine ⟨by decide, by decide, by decide, by decide⟩

/-- Claim C1 (amended): applying link to any EditBuffer with the empty
selection at p inserts the literal text `[link text](url)` at p and
returns the selection `(p+1, p+16)`: the cursor lands immediately after
the opening bracket but the rest of the inserted placeholder is
selected, not an empty cursor; in particular for the buffer `""` at 0
the result text is `[link text](url)` with selection `(1, 16)`. -/
theorem c1_amended :
    ∀ (text : List Char) (p : Nat),
      applyFormat FormatAction.link text p p =
        ⟨text.take p ++ linkPH ++ text.drop p,
         (p : Int) + 1, (p : Int) + 16⟩ := by
  intro text p
  have hsel : jsSubstring text p p = [] := jsSubstring_self text p
  have hL : linkPH.length = 16 := rfl
  simp only [applyFormat, hsel, List.isEmpty_nil, if_true, finishFmt,
    List.nil_append, List.append_nil, List.length_nil, hL,
    FmtResult.mk.injEq]
  refine ⟨trivial, ?_, ?_⟩ <;> omega

/-- Counterexample to claim C4 as stated: bold on the empty buffer with
the empty selection at 0 inserts `**bold text**`, whose placeholder
starts at offset 2 (immediately after the opening marker), but the
returned selectionStart is 4 — marker length past the claimed
position. -/
theorem c4_counterexample :
    (applyFormat FormatAction.bold [] 0 0).text = "**bold text**".data
    ∧ (applyFormat FormatAction.bold [] 0 0).selStart = 4
    ∧ (applyFormat FormatAction.bold [] 0 0).selStart ≠ 2 := by
  refine ⟨by decide, by decide, by decide⟩

/-- Claim C4 (amended): every wrap operation applied to an empty
selection at p inserts its marker-pair-wrapped placeholder at p, but
the returned selection starts at p + 2 × (marker length) — the code
adds `before.length` and `cursorOffset = before.length` — and ends at
p + marker length + placeholder length (the placeholder's end): bold
gives (p+4, p+11), italic (p+2, p+12), strikethrough (p+4, p+15), code
(p+2, p+5); only the two single-character-marker operations start the
selection where the claim says. -/
theorem c4_amended :
    ∀ (text : List Char) (p : Nat),
      applyFormat FormatAction.bold text p p =
        ⟨text.take p ++ "**".data ++ boldPH ++ "**".data ++ text.drop p,
         (p : Int) + 4, (p : Int) + 11⟩
      ∧ applyFormat FormatAction.italic text p p =
        ⟨text.take p ++ "*".data ++ italicPH ++ "*".data ++ text.drop p,
         (p : Int) + 2, (p : Int) + 12⟩
      ∧ applyFormat FormatAction.strikethrough text p p =
        ⟨text.take p ++ "~~".data ++ strikethroughPH ++ "~~".data
           ++ text.drop p,
         (p : Int) + 4, (p : Int) + 15⟩
      ∧ applyFormat FormatAction.code text p p =
        ⟨text.take p ++ "`".data ++ codePH ++ "`".data ++ text.drop p,
         (p : Int) + 2, (p : Int) + 5⟩ := by
  intro text p
  have hsel : jsSubstring text p p = [] := jsSubstring_self text p
  have l1 : boldPH.length = 9 := rfl
  have l2 : italicPH.length = 11 := rfl
  have l3 : strikethroughPH.length = 13 := rfl
  have l4 : codePH.length = 4 := rfl
  have m1 : ("**".data).length = 2 := rfl
  have m2 : ("*".data).length = 1 := rfl
  have m3 : ("~~".data).length = 2 := rfl
  have m4 : ("`".data).length = 1 := rfl
  refine ⟨?_, ?_, ?_, ?_⟩ <;>
    simp only [applyFormat, hsel, List.isEmpty_nil, if_true, jsOrElse,
      finishFmt, List.append_assoc, FmtResult.mk.injEq,
      l1, l2, l3, l4, m1, m2, m3, m4] <;>
    refine ⟨trivial, ?_, ?_⟩ <;> omega

/-- Counterexample to claim C3 as stated: the well-formed buffer
`"### a"` with selection (0, 5) is rewritten by the heading operation
to `"a"` with both selection ends set to 0 - 4 = -4, violating
`0 ≤ selectionStart` on the returned buffer. -/
theorem c3_counterexample :
    WFInput "### a".data 0 5
    ∧ (applyFormat FormatAction.heading "### a".data 0 5).selStart = -4
    ∧ ¬ WFResult (applyFormat FormatAction.heading "### a".data 0 5) := by
  refine ⟨by decide, by decide, by decide⟩

/-- Claim C3 (amended): for every operation and every well-formed
EditBuffer (0 ≤ selectionStart ≤ selectionEnd ≤ length(text)), the
returned buffer again satisfies the invariant — except that the heading
operation needs the side condition that, when the current line text
carries a `'### '` marker about to be stripped, the selection start
lies at least 4 characters after the line start (otherwise the returned
selection is selectionStart - 4 < 0). -/
theorem c3_invariant_amended :
    ∀ (action : FormatAction) (text : List Char) (s e : Nat),
      WFInput text s e →
      (action = FormatAction.heading → headingSafe text s e) →
      WFResult (applyFormat action text s e) := by
  rintro action text s e ⟨hse, hel⟩ hsafe
  have hc : ∀ ph : List Char, ∀ c : Nat, c ≤ ph.length →
      (if (jsSubstring text s e).isEmpty then c else 0) ≤
        (jsOrElse (jsSubstring text s e) ph).length := by
    intro ph c h
    unfold jsOrElse
    by_cases hh : (jsSubstring text s e).isEmpty <;> simp [hh, h]
  cases action with
  | heading => exact heading_wf text s e hse hel (hsafe rfl)
  | bold =>
    exact finishFmt_wf _ _ _ _ _ _ _ _ hse hel
      (hc boldPH 2 (by decide))
  | italic =>
    exact finishFmt_wf _ _ _ _ _ _ _ _ hse hel
      (hc italicPH 1 (by decide))
  | strikethrough =>
    exact finishFmt_wf _ _ _ _ _ _ _ _ hse hel
      (hc strikethroughPH 2 (by decide))
  | code =>
    exact finishFmt_wf _ _ _ _ _ _ _ _ hse hel
      (hc codePH 1 (by decide))
  | link =>
    show WFResult (if (jsSubstring text s e).isEmpty then _ else _)
    by_cases h : (jsSubstring text s e).isEmpty
    · rw [if_pos h]
      exact finishFmt_wf _ _ _ _ _ _ _ _ hse hel (by decide)
    · rw [if_neg h]
      exact finishFmt_wf _ _ _ _ _ _ _ _ hse hel (Nat.zero_le _)
  | ul =>
    exact finishFmt_wf _ _ _ _ _ _ _ _ hse hel (Nat.zero_le _)
  | checklist =>
    exact finishFmt_wf _ _ _ _ _ _ _ _ hse hel (Nat.zero_le _)
  | quote =>
    exact finishFmt_wf _ _ _ _ _ _ _ _ hse hel (Nat.zero_le _)

/-- Witness for C3 (amended): a concrete heading application on the
buffer `"### a"` with selection (4, 5), which satisfies the side
condition, returns a well-formed buffer. -/
theorem c3_invariant_amended_witness :
    WFInput "### a".data 4 5
    ∧ WFResult (applyFormat FormatAction.heading "### a".data 4 5) :=
  ⟨by decide, c3_invariant_amended FormatAction.heading "### a".data 4 5
    (by decide) (fun _ => by decide)⟩

theorem sw2_not_sw3 (t : List Char) (h2 : jsStartsWith h2Pat t = true) :
    jsStartsWith h3Pat t = false := by
  cases hb : jsStartsWith h3Pat t with
  | false => rfl
  | true =>
    exfalso
    have e3 := (jsStartsWith_iff h3Pat t).mp hb
    have e2 := (jsStartsWith_iff h2Pat t).mp h2
    have key : (t.take 4).take 3 = t.take 3 := by
      rw [List.take_take]
      norm_num
    rw [show h3Pat.length = 4 from rfl] at e3
    rw [show h2Pat.length = 3 from rfl] at e2
    rw [e3, e2] at key
    exact absurd key (by decide)

theorem sw1_not_sw3 (t : List Char) (h1 : jsStartsWith h1Pat t = true) :
    jsStartsWith h3Pat t = false := by
  cases hb : jsStartsWith h3Pat t with
  | false => rfl
  | true =>
    exfalso
    have e3 := (jsStartsWith_iff h3Pat t).mp hb
    have e1 := (jsStartsWith_iff h1Pat t).mp h1
    have key : (t.take 4).take 2 = t.take 2 := by
      rw [List.take_take]
      norm_num
    rw [show h3Pat.length = 4 from rfl] at e3
    rw [show h1Pat.length = 2 from rfl] at e1
    rw [e3, e1] at key
    exact absurd key (by decide)

theorem sw1_not_sw2 (t : List Char) (h1 : jsStartsWith h1Pat t = true) :
    jsStartsWith h2Pat t = false := by
  cases hb : jsStartsWith h2Pat t with
  | false => rfl
  | true =>
    exfalso
    have e2 := (jsStartsWith_iff h2Pat t).mp hb
    have e1 := (jsStartsWith_iff h1Pat t).mp h1
    have key : (t.take 3).take 2 = t.take 2 := by
      rw [List.take_take]
      norm_num
    rw [show h2Pat.length = 3 from rfl] at e2
    rw [show h1Pat.length = 2 from rfl] at e1
    rw [e2, e1] at key
    exact absurd key (by decide)

theorem applyHeadingAtEnd_h3 (t : List Char) (h : '\n' ∉ t)
    (h3 : jsStartsWith h3Pat t = true) :
    applyHeadingAtEnd t = t.drop 4 := by
  simp only [applyHeadingAtEnd, applyFormat, headingStep,
    lineStartOf_noNL t h, jsSubstring_full]
  simp [h3]

theorem applyHeadingAtEnd_h2 (t : List Char) (h : '\n' ∉ t)
    (h2 : jsStartsWith h2Pat t = true) :
    applyHeadingAtEnd t = h3Pat ++ t.drop 3 := by
  have h3 := sw2_not_sw3 t h2
  simp only [applyHeadingAtEnd, applyFormat, headingStep,
    lineStartOf_noNL t h, jsSubstring_full]
  simp [h3, h2]

theorem applyHeadingAtEnd_h1 (t : List Char) (h : '\n' ∉ t)
    (h1 : jsStartsWith h1Pat t = true) :
    applyHeadingAtEnd t = h2Pat ++ t.drop 2 := by
  have h3 := sw1_not_sw3 t h1
  have h2 := sw1_not_sw2 t h1
  simp only [applyHeadingAtEnd, applyFormat, headingStep,
    lineStartOf_noNL t h, jsSubstring_full]
  simp [h3, h2, h1]

theorem applyHeadingAtEnd_headFree (t : List Char) (h : '\n' ∉ t)
    (hf : headFree t = true) :
    applyHeadingAtEnd t = h2Pat ++ t := by
  simp only [headFree, Bool.and_eq_true, Bool.not_eq_true'] at hf
  obtain ⟨⟨h3, h2⟩, h1⟩ := hf
  simp only [applyHeadingAtEnd, applyFormat, headingStep,
    lineStartOf_noNL t h, jsSubstring_full]
  simp [h3, h2, h1]

theorem noNL_drop (t : List Char) (n : Nat) (h : '\n' ∉ t) :
    '\n' ∉ t.drop n :=
  fun hm => h (List.drop_subset n t hm)

theorem noNL_h2cons (u : List Char) (h : '\n' ∉ u) :
    '\n' ∉ h2Pat ++ u := by
  intro hm
  rcases List.mem_append.mp hm with hl | hr
  · exact absurd hl (by decide)
  · exact h hr

theorem noNL_h3cons (u : List Char) (h : '\n' ∉ u) :
    '\n' ∉ h3Pat ++ u := by
  intro hm
  rcases List.mem_append.mp hm with hl | hr
  · exact absurd hl (by decide)
  · exact h hr

theorem sw2_of_cons (u : List Char) :
    jsStartsWith h2Pat (h2Pat ++ u) = true := by
  rw [jsStartsWith_iff]
  rfl

theorem sw3_of_cons (u : List Char) :
    jsStartsWith h3Pat (h3Pat ++ u) = true := by
  rw [jsStartsWith_iff]
  rfl

/-- Counterexample to claim C5 as stated: the heading cycle has period
three, not four — four applications to the marker-free line `"abc"`
(cursor at end of line) yield `"## abc"`, not the original line. -/
theorem c5_counterexample :
    ('\n' ∉ "abc".data)
    ∧ applyHeadingAtEnd (applyHeadingAtEnd (applyHeadingAtEnd
        (applyHeadingAtEnd "abc".data))) = "## abc".data
    ∧ applyHeadingAtEnd (applyHeadingAtEnd (applyHeadingAtEnd
        (applyHeadingAtEnd "abc".data))) ≠ "abc".data := by
  refine ⟨by decide, by decide, by decide⟩

/-- Claim C5 (amended): on a single line (no line break, cursor at the
end), the heading operation steps exactly as documented — no marker →
`'## '`, `'# '` → `'## '`, `'## '` → `'### '`, `'### '` → marker
stripped — and the cycle closes after THREE applications, not four:
any line whose marker is not `'# '` and whose content below the marker
is itself marker-free returns to its original state after three
heading operations. -/
theorem c5_heading_cycle_amended :
    ∀ t : List Char, '\n' ∉ t →
      (jsStartsWith h3Pat t = true → applyHeadingAtEnd t = t.drop 4)
      ∧ (jsStartsWith h2Pat t = true →
          applyHeadingAtEnd t = h3Pat ++ t.drop 3)
      ∧ (jsStartsWith h1Pat t = true →
          applyHeadingAtEnd t = h2Pat ++ t.drop 2)
      ∧ (headFree t = true → applyHeadingAtEnd t = h2Pat ++ t)
      ∧ (jsStartsWith h1Pat t = false → headFree (lineCore t) = true →
          applyHeadingAtEnd (applyHeadingAtEnd (applyHeadingAtEnd t)) = t) := by
  intro t h
  refine ⟨applyHeadingAtEnd_h3 t h, applyHeadingAtEnd_h2 t h,
    applyHeadingAtEnd_h1 t h, applyHeadingAtEnd_headFree t h, ?_⟩
  intro h1f hcore
  by_cases h3 : jsStartsWith h3Pat t = true
  · have hcore' : headFree (t.drop 4) = true := by
      rw [lineCore, if_pos h3] at hcore
      exact hcore
    have hn4 : '\n' ∉ t.drop 4 := noNL_drop t 4 h
    have e1 := applyHeadingAtEnd_h3 t h h3
    have e2 := applyHeadingAtEnd_headFree (t.drop 4) hn4 hcore'
    have e3 := applyHeadingAtEnd_h2 (h2Pat ++ t.drop 4)
      (noNL_h2cons (t.drop 4) hn4) (sw2_of_cons (t.drop 4))
    rw [e1, e2, e3]
    rw [show (h2Pat ++ t.drop 4).drop 3 = t.drop 4 from rfl]
    have e4 := (jsStartsWith_iff h3Pat t).mp h3
    rw [show h3Pat.length = 4 from rfl] at e4
    rw [← e4]
    exact List.take_append_drop 4 t
  · rw [Bool.not_eq_true] at h3
    by_cases h2 : jsStartsWith h2Pat t = true
    · have hcore' : headFree (t.drop 3) = true := by
        rw [lineCore, if_neg (by simp [h3]), if_pos h2] at hcore
        exact hcore
      have hn3 : '\n' ∉ t.drop 3 := noNL_drop t 3 h
      have e1 := applyHeadingAtEnd_h2 t h h2
      have e2 := applyHeadingAtEnd_h3 (h3Pat ++ t.drop 3)
        (noNL_h3cons (t.drop 3) hn3) (sw3_of_cons (t.drop 3))
      have e3 := applyHeadingAtEnd_headFree (t.drop 3) hn3 hcore'
      rw [e1, e2]
      rw [show (h3Pat ++ t.drop 3).drop 4 = t.drop 3 from rfl]
      rw [e3]
      have e4 := (jsStartsWith_iff h2Pat t).mp h2
      rw [show h2Pat.length = 3 from rfl] at e4
      rw [← e4]
      exact List.take_append_drop 3 t
    · rw [Bool.not_eq_true] at h2
      have hft : headFree t = true := by
        simp [headFree, h3, h2, h1f]
      have e1 := applyHeadingAtEnd_headFree t h hft
      have e2 := applyHeadingAtEnd_h2 (h2Pat ++ t)
        (noNL_h2cons t h) (sw2_of_cons t)
      have e3 := applyHeadingAtEnd_h3 (h3Pat ++ (h2Pat ++ t).drop 3)
        (noNL_h3cons ((h2Pat ++ t).drop 3)
          (noNL_drop (h2Pat ++ t) 3 (noNL_h2cons t h)))
        (sw3_of_cons ((h2Pat ++ t).drop 3))
      rw [e1, e2, e3]
      rfl

/-- Witness for C5 (amended): the three-application cycle discharged on
the concrete line `"## x"`. -/
theorem c5_heading_cycle_amended_witness :
    applyHeadingAtEnd (applyHeadingAtEnd (applyHeadingAtEnd "## x".data)) =
      "## x".data :=
  (c5_heading_cycle_amended "## x".data (by decide)).2.2.2.2
    (by decide) (by decide)
